import Mathlib

/-!
Shallow embedding of the TB Resonance Optimizer solve path
(`TB-Resonance-Optimizer.py`).

The program's constants `PART_BASE_VALUES` and `MULTIPLIER_DATA` are embedded
directly.  Multipliers in the source are one-decimal floats (1.0 .. 5.0); here
every score is scaled by 10 so that all arithmetic is exact over `Nat`:
`resonance10 = base * mult10` corresponds to the source's
`resonance = base * mult`, and a user-entered integer requirement `m`
corresponds to `10 * m` on the scaled side.

The PuLP integer program built by the Solve handler (lines 192-204 of the
source) selects exactly one candidate combo per TB, entries are eligible only
when the combo's resonance meets the TB's minimum, part instances are pairwise
disjoint across the selected combos, and total chips stay within budget, while
maximizing total resonance.  We model a run of the exact solver by the
predicate `SolverReturns`: the returned selection is feasible and attains the
maximum total score over all feasible selections.
-/

/-- The ten part types of `PART_BASE_VALUES`. -/
inductive PartType where
  | E | R4 | R3 | R2 | R1 | R | Y3 | Y2 | Y1 | Y
  deriving DecidableEq, Repr

open PartType

/-- Base resonance value of each part type (`PART_BASE_VALUES`). -/
def PART_BASE_VALUES : PartType → Nat
  | .E => 1000
  | .R4 => 850
  | .R3 => 700
  | .R2 => 550
  | .R1 => 400
  | .R => 300
  | .Y3 => 200
  | .Y2 => 150
  | .Y1 => 100
  | .Y => 50

/-- Iteration order of the `PART_BASE_VALUES` dict (Python insertion order). -/
def PART_ORDER : List PartType := [E, R4, R3, R2, R1, R, Y3, Y2, Y1, Y]

/-- The `MULTIPLIER_DATA` dict as an ordered list of
(chip cost, multiplier scaled by 10) pairs. -/
def MULTIPLIER_DATA : List (Nat × Nat) :=
  [(0, 10), (1, 12), (2, 14), (4, 16), (6, 18), (9, 20), (12, 22), (16, 24),
   (20, 26), (25, 28), (30, 30), (36, 32), (42, 34), (48, 36), (54, 38),
   (60, 40), (66, 42), (72, 44), (78, 46), (84, 48), (90, 50)]

/-- `PARTS_PER_TB = 3`. -/
def PARTS_PER_TB : Nat := 3

/-- `part_instance_list`: the inventory expanded into one entry per part
instance, iterating part types in dict order (source lines 163-166). -/
def partInstanceList (inv : PartType → Nat) : List PartType :=
  PART_ORDER.flatMap (fun p => List.replicate (inv p) p)

/-- One candidate combo as built in the combo-generation loop
(source lines 176-186): the triple of instance indices, their part types,
the chosen chip cost, and the resulting resonance (scaled by 10). -/
structure Combo where
  idxs : List Nat
  parts : List PartType
  chips : Nat
  resonance10 : Nat
  deriving DecidableEq, Repr

instance : Inhabited Combo := ⟨⟨[], [], 0, 0⟩⟩

/-- The candidate generator (source lines 176-186): every 3-element
combination of instance indices paired with every multiplier table entry. -/
def genCombos (pl : List PartType) : List Combo :=
  (List.sublistsLen PARTS_PER_TB (List.range pl.length)).flatMap fun idxs =>
    MULTIPLIER_DATA.map fun cm =>
      { idxs := idxs
        parts := idxs.map fun i => pl.getD i E
        chips := cm.1
        resonance10 := (idxs.map fun i => PART_BASE_VALUES (pl.getD i E)).sum * cm.2 }

/-- Dict lookup `MULTIPLIER_DATA[chips]` (scaled by 10). -/
def multOf10 (chips : Nat) : Nat :=
  ((MULTIPLIER_DATA.find? fun cm => cm.1 == chips).getD (0, 0)).2

/-- All selections of one combo index per TB slot: lists of length `n`
with entries below `k`. -/
def allSels (k : Nat) : Nat → List (List Nat)
  | 0 => [[]]
  | n + 1 => (List.range k).flatMap fun c => (allSels k n).map fun s => c :: s

/-- Total chips of a selection (left side of the budget constraint,
source line 203). -/
def selChips (cs : List Combo) (sel : List Nat) : Nat :=
  (sel.map fun c => (cs.getD c default).chips).sum

/-- Total resonance (scaled by 10) of a selection (the objective,
source line 198). -/
def selScore10 (cs : List Combo) (sel : List Nat) : Nat :=
  (sel.map fun c => (cs.getD c default).resonance10).sum

/-- `disjointL a b` holds when the index lists `a` and `b` share no element. -/
def disjointL (a b : List Nat) : Bool :=
  a.all fun x => decide (x ∉ b)

/-- Pairwise disjointness of a list of index lists (the per-instance
constraints of source lines 201-202). -/
def pairwiseDisjB : List (List Nat) → Bool
  | [] => true
  | l :: ls => ls.all (disjointL l) && pairwiseDisjB ls

/-- Feasibility of a selection for the integer program of source lines
192-203: one in-range combo per slot, each meeting its slot's minimum
(the eligibility filter of lines 194-197), pairwise-disjoint instance
indices, and total chips within budget.  Minimums are compared on the
10-scaled side. -/
def feasible (cs : List Combo) (minReqs : List Nat) (budget : Nat)
    (sel : List Nat) : Bool :=
  (sel.length == minReqs.length)
  && sel.all (fun c => decide (c < cs.length))
  && (List.range sel.length).all
      (fun t => decide (10 * minReqs.getD t 0 ≤ (cs.getD (sel.getD t 0) default).resonance10))
  && pairwiseDisjB (sel.map fun c => (cs.getD c default).idxs)
  && decide (selChips cs sel ≤ budget)

/-- All feasible selections. -/
def feasibleSels (cs : List Combo) (minReqs : List Nat) (budget : Nat) :
    List (List Nat) :=
  (allSels cs.length minReqs.length).filter (feasible cs minReqs budget)

/-- The optimal value of the integer program (0 when infeasible). -/
def maxScore10 (cs : List Combo) (minReqs : List Nat) (budget : Nat) : Nat :=
  ((feasibleSels cs minReqs budget).map (selScore10 cs)).foldl Nat.max 0

/-- A run of the exact solver on the integer program returns `sel`:
`sel` is feasible and attains the maximal total resonance.  Ties may be
broken arbitrarily, so any such `sel` models a possible return value. -/
def SolverReturns (cs : List Combo) (minReqs : List Nat) (budget : Nat)
    (sel : List Nat) : Prop :=
  feasible cs minReqs budget sel = true ∧
  selScore10 cs sel = maxScore10 cs minReqs budget

/-- `sum(PART_BASE_VALUES[p] for p in PART_BASE_VALUES)` (source line 154). -/
def sumAllBase : Nat := (PART_ORDER.map PART_BASE_VALUES).sum

/-- `max(MULTIPLIER_DATA.values())`, scaled by 10 (source line 154). -/
def maxMult10 : Nat := (MULTIPLIER_DATA.map fun cm => cm.2).foldl Nat.max 0

/-- The input-validation checks of source lines 149-155: true when
`input_issues` is non-empty.  The number of TBs equals `minReqs.length`. -/
def hasInputIssues (inv : PartType → Nat) (chips : Nat) (minReqs : List Nat) :
    Bool :=
  decide ((PART_ORDER.map inv).sum < PARTS_PER_TB * minReqs.length)
  || decide (chips < minReqs.length)
  || minReqs.any fun x => decide (sumAllBase * maxMult10 < 10 * x)

/-- Observable outcome of one press of the Solve button. -/
inductive Outcome where
  | inputError : Outcome
  | noSolution : Outcome
  | success : List Nat → Nat → Outcome
  deriving DecidableEq, Repr

/-- The Solve button handler (source lines 161-227): when `input_issues` is
non-empty it reports an input error without solving; otherwise it builds the
combos, solves the integer program, and either reports no solution
(infeasible) or succeeds with an optimal selection and its total resonance. -/
def HandlerReturns (inv : PartType → Nat) (chips : Nat) (minReqs : List Nat)
    (o : Outcome) : Prop :=
  if hasInputIssues inv chips minReqs then
    o = Outcome.inputError
  else if feasibleSels (genCombos (partInstanceList inv)) minReqs chips = [] then
    o = Outcome.noSolution
  else
    ∃ sel, SolverReturns (genCombos (partInstanceList inv)) minReqs chips sel ∧
      o = Outcome.success sel (selScore10 (genCombos (partInstanceList inv)) sel)

/-! ## Helper lemmas -/

lemma getD_mem_of_lt {l : List Combo} {n : Nat} (h : n < l.length) :
    l.getD n default ∈ l := by
  have he : l.getD n default = l[n] := by
    rw [List.getD_eq_getElem?_getD, List.getElem?_eq_getElem h]
    rfl
  rw [he]
  exact List.getElem_mem h

lemma mem_allSels {k : Nat} : ∀ {n : Nat} {s : List Nat},
    s ∈ allSels k n ↔ s.length = n ∧ ∀ x ∈ s, x < k := by
  intro n
  induction n with
  | zero =>
    intro s
    constructor
    · intro h
      simp only [allSels, List.mem_singleton] at h
      subst h
      simp
    · intro h
      have hs : s = [] := List.length_eq_zero.mp h.1
      simp [allSels, hs]
  | succ n ih =>
    intro s
    constructor
    · intro h
      simp only [allSels, List.mem_flatMap, List.mem_map, List.mem_range] at h
      obtain ⟨c, hc, s', hs', rfl⟩ := h
      obtain ⟨hl, hb⟩ := ih.mp hs'
      refine ⟨by simp [hl], ?_⟩
      intro x hx
      rcases List.mem_cons.mp hx with rfl | hx2
      · exact hc
      · exact hb x hx2
    · rintro ⟨hl, hb⟩
      cases s with
      | nil => simp at hl
      | cons c s' =>
        simp only [allSels, List.mem_flatMap, List.mem_map, List.mem_range]
        exact ⟨c, hb c (by simp),
          s', ih.mpr ⟨by simpa using hl, fun x hx => hb x (by simp [hx])⟩, rfl⟩

lemma foldl_max_init_le (l : List Nat) (a : Nat) : a ≤ l.foldl Nat.max a := by
  induction l generalizing a with
  | nil => exact Nat.le_refl a
  | cons x l ih => exact Nat.le_trans (Nat.le_max_left a x) (ih (Nat.max a x))

lemma le_foldl_max_of_mem {x : Nat} {l : List Nat} (h : x ∈ l) :
    ∀ a, x ≤ l.foldl Nat.max a := by
  induction l with
  | nil => cases h
  | cons y l ih =>
    intro a
    rcases List.mem_cons.mp h with rfl | h2
    · exact Nat.le_trans (Nat.le_max_right a x) (foldl_max_init_le l (Nat.max a x))
    · exact ih h2 (Nat.max a y)

lemma feasible_spec {cs : List Combo} {mr : List Nat} {b : Nat} {sel : List Nat}
    (h : feasible cs mr b sel = true) :
    sel.length = mr.length ∧ (∀ c ∈ sel, c < cs.length) ∧
    (∀ t, t < sel.length →
      10 * mr.getD t 0 ≤ (cs.getD (sel.getD t 0) default).resonance10) ∧
    pairwiseDisjB (sel.map fun c => (cs.getD c default).idxs) = true ∧
    selChips cs sel ≤ b := by
  simp only [feasible, Bool.and_eq_true, beq_iff_eq, List.all_eq_true,
    decide_eq_true_eq, List.mem_range] at h
  obtain ⟨⟨⟨⟨h1, h2⟩, h3⟩, h4⟩, h5⟩ := h
  exact ⟨h1, h2, h3, h4, h5⟩

lemma disjointL_iff {a b : List Nat} : disjointL a b = true ↔ List.Disjoint a b := by
  simp only [disjointL, List.all_eq_true, decide_eq_true_eq]
  exact ⟨fun h x hx hxb => h x hx hxb, fun h x hx hxb => h hx hxb⟩

lemma pairwiseDisjB_iff : ∀ {l : List (List Nat)},
    pairwiseDisjB l = true ↔ l.Pairwise List.Disjoint := by
  intro l
  induction l with
  | nil => simp [pairwiseDisjB]
  | cons a ls ih =>
    simp only [pairwiseDisjB, Bool.and_eq_true, List.all_eq_true,
      List.pairwise_cons, ih]
    constructor
    · rintro ⟨h1, h2⟩
      exact ⟨fun b hb => disjointL_iff.mp (h1 b hb), h2⟩
    · rintro ⟨h1, h2⟩
      exact ⟨fun b hb => disjointL_iff.mpr (h1 b hb), h2⟩

lemma sum_map_const_of_mem {α : Type} (c : Nat) :
    ∀ (l : List α) (f : α → Nat), (∀ a ∈ l, f a = c) →
      (l.map f).sum = c * l.length := by
  intro l
  induction l with
  | nil =>
    intro f _
    simp
  | cons a l ih =>
    intro f h
    simp only [List.map_cons, List.sum_cons, List.length_cons,
      ih f (fun x hx => h x (by simp [hx]))]
    rw [h a (by simp)]
    ring

lemma mem_genCombos {pl : List PartType} {c : Combo} (hc : c ∈ genCombos pl) :
    ∃ idxs ∈ List.sublistsLen PARTS_PER_TB (List.range pl.length),
      ∃ cm ∈ MULTIPLIER_DATA,
        c = { idxs := idxs
              parts := idxs.map fun i => pl.getD i E
              chips := cm.1
              resonance10 :=
                (idxs.map fun i => PART_BASE_VALUES (pl.getD i E)).sum * cm.2 } := by
  simp only [genCombos, List.mem_flatMap, List.mem_map] at hc
  obtain ⟨idxs, hidxs, cm, hcm, h⟩ := hc
  exact ⟨idxs, hidxs, cm, hcm, h.symm⟩

lemma multOf10_table : ∀ cm ∈ MULTIPLIER_DATA, multOf10 cm.1 = cm.2 := by decide

lemma combo_idxs_shape {pl : List PartType} {c : Combo} (hc : c ∈ genCombos pl) :
    c.idxs.length = PARTS_PER_TB ∧ c.idxs.Nodup ∧ ∀ i ∈ c.idxs, i < pl.length := by
  obtain ⟨idxs, hidxs, cm, _, rfl⟩ := mem_genCombos hc
  obtain ⟨hsub, hlen⟩ := List.mem_sublistsLen.mp hidxs
  refine ⟨hlen, List.Nodup.sublist hsub (List.nodup_range _), ?_⟩
  intro i hi
  exact List.mem_range.mp (List.Sublist.subset hsub hi)

lemma combo_resonance_eq {pl : List PartType} {c : Combo} (hc : c ∈ genCombos pl) :
    c.resonance10 = (c.parts.map PART_BASE_VALUES).sum * multOf10 c.chips := by
  obtain ⟨idxs, _, cm, hcm, rfl⟩ := mem_genCombos hc
  simp only [List.map_map]
  rw [multOf10_table cm hcm]
  rfl

lemma genCombos_length (pl : List PartType) :
    (genCombos pl).length = Nat.choose pl.length PARTS_PER_TB * MULTIPLIER_DATA.length := by
  rw [genCombos, List.length_flatMap]
  rw [sum_map_const_of_mem MULTIPLIER_DATA.length _ _ (fun idxs _ => by simp)]
  simp only [List.length_sublistsLen, List.length_range]
  ring

lemma partInstanceList_length (inv : PartType → Nat) :
    (partInstanceList inv).length = (PART_ORDER.map inv).sum := by
  rw [partInstanceList, List.length_flatMap]
  simp only [Function.comp_def, List.length_replicate]

lemma feasible_mem_allSels {cs : List Combo} {mr : List Nat} {b : Nat}
    {sel : List Nat} (h : feasible cs mr b sel = true) :
    sel ∈ allSels cs.length mr.length := by
  obtain ⟨h1, h2, _, _, _⟩ := feasible_spec h
  exact mem_allSels.mpr ⟨h1, h2⟩

/-! ## Concrete instances used by witnesses -/

/-- Inventory with three `Y` parts and nothing else. -/
def invY3 : PartType → Nat
  | .Y => 3
  | _ => 0

/-- Candidates generated from the `invY3` inventory. -/
def csY : List Combo := genCombos (partInstanceList invY3)

/-! ## Claims -/

/-- Claim C1: if the assignment solver reports success, the returned
selection's total score is maximal: every alternative feasible selection
(one in-range candidate per slot meeting its minimum, pairwise-disjoint
part instance indices, total chips within budget) has total score at most
the returned total score. -/
theorem claim_c1_solver_optimal (cs : List Combo) (mr : List Nat) (b : Nat)
    (sel alt : List Nat) (h : SolverReturns cs mr b sel)
    (halt : feasible cs mr b alt = true) :
    selScore10 cs alt ≤ selScore10 cs sel := by
  rcases h with ⟨_, hmax⟩
  rw [hmax]
  simp only [maxScore10, feasibleSels]
  exact le_foldl_max_of_mem
    (List.mem_map_of_mem (selScore10 cs)
      (List.mem_filter.mpr ⟨feasible_mem_allSels halt, halt⟩)) 0

theorem claim_c1_witness :
    SolverReturns csY [0] 0 [0] ∧
    feasible csY [0] 0 [0] = true ∧
    selScore10 csY [0] ≤ selScore10 csY [0] :=
  ⟨⟨rfl, rfl⟩, rfl, claim_c1_solver_optimal csY [0] 0 [0] [0] ⟨rfl, rfl⟩ rfl⟩

/-- Claim C2: for an inventory expanding to N part instances the candidate
generator produces exactly C(N,3) times the multiplier-table size many
candidates, and every candidate's score equals the sum of the base values
of its three part types times its chosen multiplier. -/
theorem claim_c2_candidate_count_and_score (pl : List PartType) :
    (genCombos pl).length =
      Nat.choose pl.length PARTS_PER_TB * MULTIPLIER_DATA.length ∧
    ∀ c ∈ genCombos pl,
      c.resonance10 = (c.parts.map PART_BASE_VALUES).sum * multOf10 c.chips :=
  ⟨genCombos_length pl, fun _ hc => combo_resonance_eq hc⟩

theorem claim_c2_witness :
    (genCombos [E, R2, Y]).length =
      Nat.choose 3 PARTS_PER_TB * MULTIPLIER_DATA.length ∧
    ((genCombos [E, R2, Y]).getD 0 default).resonance10 =
      (((genCombos [E, R2, Y]).getD 0 default).parts.map PART_BASE_VALUES).sum *
        multOf10 ((genCombos [E, R2, Y]).getD 0 default).chips :=
  ⟨(claim_c2_candidate_count_and_score [E, R2, Y]).1,
   (claim_c2_candidate_count_and_score [E, R2, Y]).2 _ (getD_mem_of_lt (by decide))⟩

/-- Claim C3: in every selection returned on success, no part instance index
appears in more than one assigned candidate group: the selected groups'
index lists are pairwise disjoint. -/
theorem claim_c3_returned_disjoint (cs : List Combo) (mr : List Nat) (b : Nat)
    (sel : List Nat) (h : SolverReturns cs mr b sel) :
    (sel.map fun c => (cs.getD c default).idxs).Pairwise List.Disjoint :=
  pairwiseDisjB_iff.mp (feasible_spec h.1).2.2.2.1

theorem claim_c3_witness :
    SolverReturns csY [0] 0 [0] ∧
    (([0] : List Nat).map fun c => (csY.getD c default).idxs).Pairwise
      List.Disjoint :=
  ⟨⟨rfl, rfl⟩, claim_c3_returned_disjoint csY [0] 0 [0] ⟨rfl, rfl⟩⟩

/-- Claim C4: in every selection returned on success, each slot's assigned
candidate group has score at least that slot's minimum requirement
(scores scaled by 10). -/
theorem claim_c4_returned_meets_min (cs : List Combo) (mr : List Nat) (b : Nat)
    (sel : List Nat) (t : Nat) (h : SolverReturns cs mr b sel)
    (ht : t < mr.length) :
    10 * mr.getD t 0 ≤ (cs.getD (sel.getD t 0) default).resonance10 := by
  obtain ⟨h1, _, h3, _, _⟩ := feasible_spec h.1
  exact h3 t (by rw [h1]; exact ht)

theorem claim_c4_witness :
    SolverReturns csY [0] 0 [0] ∧ (0 : Nat) < 1 ∧
    10 * ([0] : List Nat).getD 0 0 ≤
      (csY.getD (([0] : List Nat).getD 0 0) default).resonance10 :=
  ⟨⟨rfl, rfl⟩, by decide,
   claim_c4_returned_meets_min csY [0] 0 [0] 0 ⟨rfl, rfl⟩ (by decide)⟩

/-- Claim C5: in every selection returned on success, the total chip cost of
the assigned candidate groups is at most the total chips available. -/
theorem claim_c5_returned_within_budget (cs : List Combo) (mr : List Nat)
    (b : Nat) (sel : List Nat) (h : SolverReturns cs mr b sel) :
    selChips cs sel ≤ b :=
  (feasible_spec h.1).2.2.2.2

theorem claim_c5_witness :
    SolverReturns csY [0] 0 [0] ∧ selChips csY [0] ≤ 0 :=
  ⟨⟨rfl, rfl⟩, claim_c5_returned_within_budget csY [0] 0 [0] ⟨rfl, rfl⟩⟩

/-- Claim C9: two runs of the solve on identical inputs return the same
total score: any two possible returned selections have equal total
resonance, even though the selections themselves may differ. -/
theorem claim_c9_score_deterministic (cs : List Combo) (mr : List Nat)
    (b : Nat) (sel1 sel2 : List Nat) (h1 : SolverReturns cs mr b sel1)
    (h2 : SolverReturns cs mr b sel2) :
    selScore10 cs sel1 = selScore10 cs sel2 :=
  h1.2.trans h2.2.symm

theorem claim_c9_witness :
    SolverReturns csY [0] 0 [0] ∧ selScore10 csY [0] = selScore10 csY [0] :=
  ⟨⟨rfl, rfl⟩,
   claim_c9_score_deterministic csY [0] 0 [0] [0] ⟨rfl, rfl⟩ ⟨rfl, rfl⟩⟩

/-- Inventory of the concrete scenario of claim C6: two `E` and two `R2`. -/
def invC6 : PartType → Nat
  | .E => 2
  | .R2 => 2
  | _ => 0

/-- Candidates generated from the `invC6` inventory. -/
def csC6 : List Combo := genCombos (partInstanceList invC6)

/-- Claim C6 counterexample: on inventory two E + two R2 with budget 9 and one
slot of minimum 0, the optimal total score is 5100 (scaled: 51000), not the
claimed 4300 (scaled: 43000): the best triple E,E,R2 has base 2550, not 2150,
and no possible returned outcome carries total score 4300. -/
theorem claim_c6_counterexample :
    maxScore10 csC6 [0] 9 = 51000 ∧
    ¬ ∃ sel, HandlerReturns invC6 9 [0] (Outcome.success sel 43000) := by
  refine ⟨rfl, ?_⟩
  rintro ⟨sel, h⟩
  have e1 : hasInputIssues invC6 9 [0] = false := rfl
  have e2 : feasibleSels (genCombos (partInstanceList invC6)) [0] 9 ≠ [] := by
    decide
  unfold HandlerReturns at h
  rw [e1] at h
  simp only [Bool.false_eq_true, if_false] at h
  rw [if_neg e2] at h
  obtain ⟨sel2, hs, heq⟩ := h
  injection heq with hsel hscore
  have hmax : maxScore10 (genCombos (partInstanceList invC6)) [0] 9 = 51000 := rfl
  rw [hs.2, hmax] at hscore
  exact absurd hscore (by decide)

/-- Claim C6 amended: on inventory two E + two R2 with budget 9 and one slot
of minimum 0, the handler succeeds and the optimal total score is 5100
(scaled: 51000), attained by the triple E,E,R2 (base 2550) with the cost-9
table entry of multiplier 2.0. -/
theorem claim_c6_scenario :
    hasInputIssues invC6 9 [0] = false ∧
    SolverReturns csC6 [0] 9 [68] ∧
    (csC6.getD 68 default).parts = [E, E, R2] ∧
    (csC6.getD 68 default).chips = 9 ∧
    (csC6.getD 68 default).resonance10 = 51000 ∧
    HandlerReturns invC6 9 [0] (Outcome.success [68] 51000) := by
  refine ⟨rfl, ⟨rfl, rfl⟩, rfl, rfl, rfl, ?_⟩
  have e1 : hasInputIssues invC6 9 [0] = false := rfl
  have e2 : feasibleSels (genCombos (partInstanceList invC6)) [0] 9 ≠ [] := by
    decide
  unfold HandlerReturns
  rw [e1]
  simp only [Bool.false_eq_true, if_false]
  rw [if_neg e2]
  exact ⟨[68], ⟨rfl, rfl⟩, rfl⟩

/-- Inventory with three `E` parts: the strongest possible parts, whose best
candidate group attains the theoretical per-group maximum 15000
(scaled: 150000). -/
def invE3 : PartType → Nat
  | .E => 3
  | _ => 0

/-- Candidates generated from the `invE3` inventory. -/
def csE3 : List Combo := genCombos (partInstanceList invE3)

/-- Claim C7 counterexample: the minimum 16000 exceeds the theoretical
maximum achievable candidate-group score 15000 (scaled: every candidate of
the all-E inventory scores at most 150000 < 160000), yet the validation
flags no input issue and the handler proceeds to the solver, reporting
no-solution rather than an input rejection. -/
theorem claim_c7_counterexample :
    csE3.all (fun c => decide (c.resonance10 ≤ 150000)) = true ∧
    (150000 : Nat) < 10 * 16000 ∧
    hasInputIssues invE3 1 [16000] = false ∧
    HandlerReturns invE3 1 [16000] Outcome.noSolution ∧
    ¬ HandlerReturns invE3 1 [16000] Outcome.inputError := by
  refine ⟨rfl, by decide, rfl, (rfl : Outcome.noSolution = Outcome.noSolution), ?_⟩
  intro h
  exact Outcome.noConfusion h

/-- Claim C7 amended: a slot minimum exceeding 21500, the code's threshold
(sum of all ten part-type base values times the maximum multiplier), is
detected by the input validation and the handler reports an input-issue
rejection without attempting a solve. -/
theorem claim_c7_highmin_rejected (inv : PartType → Nat) (chips : Nat)
    (minReqs : List Nat) (x : Nat) (o : Outcome) (hx : x ∈ minReqs)
    (hbig : 21500 < x) (ho : HandlerReturns inv chips minReqs o) :
    o = Outcome.inputError := by
  have hb : hasInputIssues inv chips minReqs = true := by
    simp only [hasInputIssues, Bool.or_eq_true, List.any_eq_true,
      decide_eq_true_eq]
    refine Or.inr ⟨x, hx, ?_⟩
    have hsm : sumAllBase * maxMult10 = 215000 := rfl
    omega
  unfold HandlerReturns at ho
  rw [hb] at ho
  simpa using ho

theorem claim_c7_witness :
    (30000 ∈ ([30000] : List Nat)) ∧ 21500 < 30000 ∧
    HandlerReturns invY3 1 [30000] Outcome.inputError ∧
    Outcome.inputError = Outcome.inputError := by
  have hh : HandlerReturns invY3 1 [30000] Outcome.inputError :=
    (rfl : Outcome.inputError = Outcome.inputError)
  exact ⟨by decide, by decide, hh,
    claim_c7_highmin_rejected invY3 1 [30000] 30000 Outcome.inputError
      (by decide) (by decide) hh⟩

/-- Claim C8: when the inventory expands to fewer than 3 x (number of slots)
part instances, no selection is feasible for the integer program
(pigeonhole on disjoint index triples), and the handler rejects the input
and returns no assignment. -/
theorem claim_c8_insufficient_parts (inv : PartType → Nat) (chips : Nat)
    (minReqs : List Nat) (sel : List Nat) (o : Outcome)
    (hN : (partInstanceList inv).length < PARTS_PER_TB * minReqs.length) :
    feasible (genCombos (partInstanceList inv)) minReqs chips sel = false ∧
    (HandlerReturns inv chips minReqs o → o = Outcome.inputError) := by
  constructor
  · cases hfe : feasible (genCombos (partInstanceList inv)) minReqs chips sel with
    | false => rfl
    | true =>
      exfalso
      obtain ⟨hlen, hbound, _, hdisj, _⟩ := feasible_spec hfe
      have hshape : ∀ l ∈ sel.map (fun c =>
            ((genCombos (partInstanceList inv)).getD c default).idxs),
          l.length = PARTS_PER_TB ∧ l.Nodup ∧
            ∀ i ∈ l, i < (partInstanceList inv).length := by
        intro l hl
        obtain ⟨c, hc, rfl⟩ := List.mem_map.mp hl
        exact combo_idxs_shape (getD_mem_of_lt (hbound c hc))
      have hnodup : (sel.map (fun c =>
          ((genCombos (partInstanceList inv)).getD c default).idxs)).flatten.Nodup :=
        List.nodup_flatten.mpr
          ⟨fun l hl => (hshape l hl).2.1, pairwiseDisjB_iff.mp hdisj⟩
      have hlenf : (sel.map (fun c =>
          ((genCombos (partInstanceList inv)).getD c default).idxs)).flatten.length =
          PARTS_PER_TB * sel.length := by
        rw [List.length_flatten]
        rw [sum_map_const_of_mem PARTS_PER_TB _ List.length
          (fun l hl => (hshape l hl).1)]
        rw [List.length_map]
      have hsubN : ∀ x ∈ (sel.map (fun c =>
          ((genCombos (partInstanceList inv)).getD c default).idxs)).flatten,
          x < (partInstanceList inv).length := by
        intro x hx
        obtain ⟨l, hl, hxl⟩ := List.mem_flatten.mp hx
        exact (hshape l hl).2.2 x hxl
      have hcard : (sel.map (fun c =>
          ((genCombos (partInstanceList inv)).getD c default).idxs)).flatten.length ≤
          (partInstanceList inv).length := by
        have h1 := List.toFinset_card_of_nodup hnodup
        have h2 : (sel.map (fun c =>
            ((genCombos (partInstanceList inv)).getD c default).idxs)).flatten.toFinset ⊆
            Finset.range (partInstanceList inv).length := by
          intro x hx
          exact Finset.mem_range.mpr (hsubN x (List.mem_toFinset.mp hx))
        calc (sel.map (fun c =>
              ((genCombos (partInstanceList inv)).getD c default).idxs)).flatten.length
            = _ := h1.symm
          _ ≤ (Finset.range (partInstanceList inv).length).card :=
              Finset.card_le_card h2
          _ = (partInstanceList inv).length := Finset.card_range _
      rw [hlenf, hlen] at hcard
      have h3 : PARTS_PER_TB = 3 := rfl
      rw [h3] at hN hcard
      omega
  · intro ho
    have hb : hasInputIssues inv chips minReqs = true := by
      simp only [hasInputIssues, Bool.or_eq_true, decide_eq_true_eq]
      refine Or.inl (Or.inl ?_)
      rw [← partInstanceList_length]
      exact hN
    unfold HandlerReturns at ho
    rw [hb] at ho
    simpa using ho

/-- The empty inventory. -/
def invZero : PartType → Nat := fun _ => 0

theorem claim_c8_witness :
    (partInstanceList invZero).length < PARTS_PER_TB * ([0] : List Nat).length ∧
    feasible (genCombos (partInstanceList invZero)) [0] 0 [0] = false ∧
    (HandlerReturns invZero 0 [0] Outcome.inputError →
      Outcome.inputError = Outcome.inputError) := by
  have h := claim_c8_insufficient_parts invZero 0 [0] [0] Outcome.inputError
    (by decide)
  exact ⟨by decide, h.1, h.2⟩

/-- Claim C10: whenever the total chips available is strictly below the
number of slots, the validation flags an input issue and the handler
reports an input-issue rejection instead of attempting a solve. -/
theorem claim_c10_lowchips_rejected (inv : PartType → Nat) (chips : Nat)
    (minReqs : List Nat) (o : Outcome) (hc : chips < minReqs.length)
    (ho : HandlerReturns inv chips minReqs o) : o = Outcome.inputError := by
  have hb : hasInputIssues inv chips minReqs = true := by
    simp only [hasInputIssues, Bool.or_eq_true, decide_eq_true_eq]
    exact Or.inl (Or.inr hc)
  unfold HandlerReturns at ho
  rw [hb] at ho
  simpa using ho

theorem claim_c10_witness :
    (0 : Nat) < ([0] : List Nat).length ∧
    feasible csY [0] 0 [0] = true ∧
    HandlerReturns invY3 0 [0] Outcome.inputError ∧
    Outcome.inputError = Outcome.inputError := by
  have hh : HandlerReturns invY3 0 [0] Outcome.inputError :=
    (rfl : Outcome.inputError = Outcome.inputError)
  exact ⟨by decide, rfl, hh,
    claim_c10_lowchips_rejected invY3 0 [0] Outcome.inputError (by decide) hh⟩
